import Mathlib

/-!
Verification of the OpenSfM triangulation core (`geometry/src/triangulation.cc`),
of the depth-map binding layer (`dense/depthmap_bind.h`), and of the reprojection
error test scenario (`bundle/test/reprojection_errors_test.cc`), as a shallow
embedding over the real numbers.  Double-precision arithmetic is modelled by ℝ;
Eigen vectors and matrices become explicit record types.  Library code that is
not part of these sources (the Eigen SVD, the ceres solver, the midpoint solve
helpers declared in `geometry/triangulation.h`) is modelled from the
specification, with a doc comment saying so on each such definition.
-/

namespace OpenSfM

/-- A 3-vector of doubles (`Vec3d`). -/
structure Vec3 where
  x : ℝ
  y : ℝ
  z : ℝ

instance : Inhabited Vec3 := ⟨⟨0, 0, 0⟩⟩

/-- The zero 3-vector (`Vec3d::Zero()`). -/
def Vec3.zero : Vec3 := ⟨0, 0, 0⟩

/-- Componentwise subtraction of 3-vectors. -/
def Vec3.sub (u v : Vec3) : Vec3 := ⟨u.x - v.x, u.y - v.y, u.z - v.z⟩

/-- Componentwise addition of 3-vectors. -/
def Vec3.add (u v : Vec3) : Vec3 := ⟨u.x + v.x, u.y + v.y, u.z + v.z⟩

/-- Negation of a 3-vector. -/
def Vec3.neg (u : Vec3) : Vec3 := ⟨-u.x, -u.y, -u.z⟩

/-- Scalar multiple of a 3-vector. -/
def Vec3.smul (a : ℝ) (u : Vec3) : Vec3 := ⟨a * u.x, a * u.y, a * u.z⟩

/-- Euclidean inner product of 3-vectors (`u.dot(v)`). -/
def dot3 (u v : Vec3) : ℝ := u.x * v.x + u.y * v.y + u.z * v.z

/-- A homogeneous 4-vector of doubles (`Vec4d`). -/
structure Vec4 where
  x : ℝ
  y : ℝ
  z : ℝ
  w : ℝ

instance : Inhabited Vec4 := ⟨⟨0, 0, 0, 0⟩⟩

/-- Euclidean inner product of 4-vectors. -/
def dot4 (u v : Vec4) : ℝ := u.x * v.x + u.y * v.y + u.z * v.z + u.w * v.w

/-- Componentwise subtraction of 4-vectors. -/
def Vec4.sub (u v : Vec4) : Vec4 := ⟨u.x - v.x, u.y - v.y, u.z - v.z, u.w - v.w⟩

/-- Scalar multiple of a 4-vector. -/
def Vec4.smul (a : ℝ) (u : Vec4) : Vec4 := ⟨a * u.x, a * u.y, a * u.z, a * u.w⟩

/-- The first three components (`X.head<3>()`). -/
def Vec4.head3 (u : Vec4) : Vec3 := ⟨u.x, u.y, u.z⟩

/-- A 3×4 world-to-camera pose matrix `[R | t]` (`Mat34d`), stored by rows. -/
structure Mat34 where
  r0 : Vec4
  r1 : Vec4
  r2 : Vec4

instance : Inhabited Mat34 := ⟨⟨default, default, default⟩⟩

/-- `Rt * X` for a homogeneous 4-vector `X`. -/
def Mat34.apply (Rt : Mat34) (X : Vec4) : Vec3 :=
  ⟨dot4 Rt.r0 X, dot4 Rt.r1 X, dot4 Rt.r2 X⟩

/-- `Rt.block<3,3>(0,0).transpose() * b`: the transposed rotation block of the
pose applied to a bearing, which maps a camera-frame bearing to world frame. -/
def Mat34.rotTransposeApply (Rt : Mat34) (b : Vec3) : Vec3 :=
  ⟨Rt.r0.x * b.x + Rt.r1.x * b.y + Rt.r2.x * b.z,
   Rt.r0.y * b.x + Rt.r1.y * b.y + Rt.r2.y * b.z,
   Rt.r0.z * b.x + Rt.r1.z * b.y + Rt.r2.z * b.z⟩

/-- A 3×3 rotation matrix (`Mat3d`), stored by rows. -/
structure Mat3 where
  r0 : Vec3
  r1 : Vec3
  r2 : Vec3

/-- `R * v` for a 3×3 matrix. -/
def Mat3.apply (R : Mat3) (v : Vec3) : Vec3 :=
  ⟨dot3 R.r0 v, dot3 R.r1 v, dot3 R.r2 v⟩

/-- `AngleBetweenVectors` (triangulation.cc, lines 13–20): the angle between two
vectors, computed as `acos` of the normalized inner product; when the computed
cosine has absolute value at least 1 the function returns 0 instead of calling
`acos` outside its domain. -/
noncomputable def AngleBetweenVectors (u v : Vec3) : ℝ :=
  let c := dot3 u v / Real.sqrt (dot3 u u * dot3 v v)
  if 1 ≤ |c| then 0 else Real.arccos c

/-- Whether one angle lies in the valid parallax band
`[min_angle, π - min_angle]` (the test on lines 92 and 153). -/
noncomputable def goodAngle (angle minAngle : ℝ) : Bool :=
  if minAngle ≤ angle ∧ angle ≤ Real.pi - minAngle then true else false

/-- The `angle_ok` double loop (lines 84–96 and 149–157): over every pair of
indices `j < i` below `count`, whether some pair of the vectors has an angle
in the valid parallax band. -/
noncomputable def anyGoodPair (count : ℕ) (vs : List Vec3) (minAngle : ℝ) : Bool :=
  (List.range count).any fun i =>
    (List.range i).any fun j =>
      goodAngle (AngleBetweenVectors (vs.getD i default) (vs.getD j default)) minAngle

/-- The `world_bearings` rows of `TriangulateBearingsDLT` (lines 86–88):
`Rt.block<3,3>(0,0).transpose() * bearings.row(i)` for each view. -/
def worldBearings (Rts : List Mat34) (bearings : List Vec3) : List Vec3 :=
  (List.range Rts.length).map fun i =>
    (Rts.getD i default).rotTransposeApply (bearings.getD i default)

/-- The 2N×4 homogeneous system of `TriangulateBearingsDLTSolve`
(lines 124–130): two rows per bearing,
row 2i = b_x·Rt.row(2) − b_z·Rt.row(0) and
row 2i+1 = b_y·Rt.row(2) − b_z·Rt.row(1). -/
def dltSystem (bearings : List Vec3) (Rts : List Mat34) : List Vec4 :=
  (List.zip bearings Rts).flatMap fun p =>
    [Vec4.sub (Vec4.smul p.1.x p.2.r2) (Vec4.smul p.1.z p.2.r0),
     Vec4.sub (Vec4.smul p.1.y p.2.r2) (Vec4.smul p.1.z p.2.r1)]

/-- `‖A v‖²` for the row-list representation of a matrix. -/
def sysNormSq (A : List Vec4) (v : Vec4) : ℝ :=
  (A.map fun r => dot4 r v ^ 2).sum

/-- The defining property of the singular vector of the smallest singular
value: a unit vector minimizing `‖A v‖` over the unit sphere. -/
def IsSmallestSingularVector (A : List Vec4) (v : Vec4) : Prop :=
  dot4 v v = 1 ∧ ∀ w : Vec4, dot4 w w = 1 → sysNormSq A v ≤ sysNormSq A w

/-- Modelled from the spec: the `Eigen::JacobiSVD` null-space solve used on
lines 132–137 ("solve via the null vector of the system (smallest singular
vector)") — the last column of `V`, i.e. a unit vector minimizing `‖A v‖`.
The SVD itself is Eigen library code, not part of these sources. -/
noncomputable def svdSmallestSingularVector (A : List Vec4) : Vec4 :=
  letI := Classical.propDecidable (∃ v, IsSmallestSingularVector A v)
  if h : ∃ v, IsSmallestSingularVector A v then h.choose else default

/-- `TriangulateBearingsDLTSolve` (lines 119–140): build the 2N×4 system and
return the singular vector of its smallest singular value. -/
noncomputable def TriangulateBearingsDLTSolve (bearings : List Vec3)
    (Rts : List Mat34) : Vec4 :=
  svdSmallestSingularVector (dltSystem bearings Rts)

/-- The per-view post-check of `TriangulateBearingsDLT` (lines 105–114): the
view at index `i` passes when the angle between the reprojected ray
`Rts[i] * X` and the measured bearing is at most `threshold` and their inner
product is at least `min_depth`. -/
noncomputable def dltViewOk (Rts : List Mat34) (bearings : List Vec3)
    (threshold minDepth : ℝ) (X : Vec4) (i : ℕ) : Bool :=
  let projected := (Rts.getD i default).apply X
  let measured := bearings.getD i default
  if AngleBetweenVectors projected measured > threshold then false
  else if dot3 projected measured < minDepth then false
  else true

/-- `TriangulateBearingsDLT` (lines 77–117), parametrized by the linear solve
it invokes on line 102 so that theorems can state that the parallax gate
returns before any solve is attempted.  The pair-angle gate runs over the
world-frame bearings; on success the homogeneous solution is dehomogenized by
its fourth component and every view's post-check must pass. -/
noncomputable def TriangulateBearingsDLTWith
    (solve : List Vec3 → List Mat34 → Vec4) (Rts : List Mat34)
    (bearings : List Vec3) (threshold minAngle minDepth : ℝ) : Bool × Vec3 :=
  let count := Rts.length
  if anyGoodPair count (worldBearings Rts bearings) minAngle then
    let X0 := solve bearings Rts
    let X := Vec4.smul (1 / X0.w) X0
    if (List.range count).all fun i =>
        dltViewOk Rts bearings threshold minDepth X i then
      (true, X.head3)
    else (false, Vec3.zero)
  else (false, Vec3.zero)

/-- `TriangulateBearingsDLT` with its actual solve. -/
noncomputable def TriangulateBearingsDLT (Rts : List Mat34)
    (bearings : List Vec3) (threshold minAngle minDepth : ℝ) : Bool × Vec3 :=
  TriangulateBearingsDLTWith TriangulateBearingsDLTSolve Rts bearings threshold
    minAngle minDepth

/-- The squared distance from a point to the ray `(center, bearing)`. -/
noncomputable def raySqDist (p center bearing : Vec3) : ℝ :=
  let d := p.sub center
  dot3 d d - dot3 d bearing ^ 2 / dot3 bearing bearing

/-- The objective of the midpoint solve: the sum of squared distances from the
point to each ray. -/
noncomputable def midpointCost (centers bearings : List Vec3) (p : Vec3) : ℝ :=
  ((List.zip centers bearings).map fun cb => raySqDist p cb.1 cb.2).sum

/-- Modelled from the spec: `TriangulateBearingsMidpointSolve` (declared in
`geometry/triangulation.h`, which is not among these sources) "solves a
different linear least-squares system (minimizing the sum of squared
distances from the point to each ray)": a minimizer of `midpointCost`. -/
noncomputable def TriangulateBearingsMidpointSolve
    (centers bearings : List Vec3) : Vec3 :=
  letI := Classical.propDecidable
    (∃ p, ∀ q, midpointCost centers bearings p ≤ midpointCost centers bearings q)
  if h : ∃ p, ∀ q, midpointCost centers bearings p ≤ midpointCost centers bearings q
  then h.choose else default

/-- The post-check loop of `TriangulateBearingsMidpoint` (lines 166–175) over
views `i, i+1, …, count-1`.  Reading `threshold_list[i]` past the end of the
list is undefined behaviour in the source, modelled as `none`; the read
happens before either comparison, and the loop returns failure at the first
violating view. -/
noncomputable def midpointPostLoop (centers bearings : List Vec3)
    (thresholdList : List ℝ) (minDepth : ℝ) (X : Vec3) (count : ℕ) :
    ℕ → Option (Bool × Vec3)
  | i =>
    if _hi : i < count then
      let projected := X.sub (centers.getD i default)
      let measured := bearings.getD i default
      match thresholdList.get? i with
      | none => none
      | some t =>
        if AngleBetweenVectors projected measured > t then some (false, Vec3.zero)
        else if dot3 projected measured < minDepth then some (false, Vec3.zero)
        else midpointPostLoop centers bearings thresholdList minDepth X count (i + 1)
    else some (true, X)
  termination_by i => count - i

/-- `TriangulateBearingsMidpoint` (lines 142–178), parametrized by the solve
it invokes on line 163.  The pair-angle gate runs over the bearings
themselves; `count` is the number of rows of `centers`.  `none` models the
undefined behaviour of an out-of-range `threshold_list` read. -/
noncomputable def TriangulateBearingsMidpointWith
    (solve : List Vec3 → List Vec3 → Vec3) (centers bearings : List Vec3)
    (thresholdList : List ℝ) (minAngle minDepth : ℝ) : Option (Bool × Vec3) :=
  let count := centers.length
  if anyGoodPair count bearings minAngle then
    let X := solve centers bearings
    midpointPostLoop centers bearings thresholdList minDepth X count 0
  else some (false, Vec3.zero)

/-- `TriangulateBearingsMidpoint` with its actual solve. -/
noncomputable def TriangulateBearingsMidpoint (centers bearings : List Vec3)
    (thresholdList : List ℝ) (minAngle minDepth : ℝ) : Option (Bool × Vec3) :=
  TriangulateBearingsMidpointWith TriangulateBearingsMidpointSolve centers
    bearings thresholdList minAngle minDepth

/-- Modelled from the spec: `TriangulateTwoBearingsMidpointSolve` (declared in
`geometry/triangulation.h`, not among these sources) — the "closed-form
midpoint solve without a general linear solver" for exactly two rays.  The
2×2 normal equations for the two ray parameters are solved in closed form by
Cramer's rule and the midpoint of the two closest points on the rays is
returned; a degenerate (parallel-ray) system reports failure.  Arguments are
the two rows of the centers matrix followed by the two rows of the bearings
matrix. -/
noncomputable def TriangulateTwoBearingsMidpointSolve (o1 o2 b1 b2 : Vec3) :
    Bool × Vec3 :=
  let t := o2.sub o1
  let a11 := dot3 b1 b1
  let a12 := dot3 b1 b2
  let a22 := dot3 b2 b2
  let det := a11 * a22 - a12 * a12
  if det = 0 then (false, Vec3.zero)
  else
    let l1 := (a22 * dot3 t b1 - a12 * dot3 t b2) / det
    let l2 := (a12 * dot3 t b1 - a11 * dot3 t b2) / det
    (true,
     Vec3.smul (1 / 2)
       ((o1.add (Vec3.smul l1 b1)).add (o2.add (Vec3.smul l2 b2))))

/-- `TriangulateTwoBearingsMidpointMany` (lines 180–193): one closed-form
two-ray solve per row, with centers `{0, translation}` and bearings
`{bearings1.row(i), rotation * bearings2.row(i)}`. -/
noncomputable def TriangulateTwoBearingsMidpointMany
    (bearings1 bearings2 : List Vec3) (rotation : Mat3) (translation : Vec3) :
    List (Bool × Vec3) :=
  (List.range bearings1.length).map fun i =>
    TriangulateTwoBearingsMidpointSolve Vec3.zero translation
      (bearings1.getD i default) (rotation.apply (bearings2.getD i default))

/-- Modelled from the spec: `geometry::Normalize::Forward` (from
`geometry/transformations_functions.h`, not among these sources) — division
of the vector by its Euclidean norm, where "normalization guards against
division by a vanishing norm" (§4.1): a zero vector is returned unchanged. -/
noncomputable def NormalizeForward (v : Vec3) : Vec3 :=
  if dot3 v v = 0 then v else Vec3.smul (1 / Real.sqrt (dot3 v v)) v

/-- The residual loop of `BearingErrorCost::Evaluate` (lines 31–66): for each
observation `i`, `projected = Normalize(point − centers.row(i))` and
`residuals[i*3 + j] = projected[j] − bearings.row(i)[j]`. -/
noncomputable def BearingErrorCostEvaluate (centers bearings : List Vec3)
    (point : Vec3) : List ℝ :=
  (List.range bearings.length).flatMap fun i =>
    let center := centers.getD i default
    let bearing := bearings.getD i default
    let projected := NormalizeForward (point.sub center)
    [projected.x - bearing.x, projected.y - bearing.y, projected.z - bearing.z]

/-- Modelled from the spec: `ceres::TinySolver` (ceres library code, not among
these sources) — a generic least-squares solver performing Gauss-Newton-like
iterations on the supplied cost from the initial iterate, with
`max_num_iterations` a hard stop and a convergence-based early exit allowed
(§4.4).  The update step and the convergence test are left abstract; the
result is the final iterate together with the number of iterations
performed. -/
noncomputable def TinySolverRun (step : Vec3 → Vec3) (converged : Vec3 → Bool) :
    ℕ → Vec3 → Vec3 × ℕ
  | 0, x => (x, 0)
  | n + 1, x =>
    if converged x then (x, 0)
    else
      let r := TinySolverRun step converged n (step x)
      (r.1, r.2 + 1)

/-- Modelled from the spec: the Gauss-Newton-like update that
`ceres::TinySolver` derives from the `BearingErrorCost` residuals and
Jacobians.  Its exact form is ceres library code, so it is left abstract. -/
noncomputable def tinySolverStep (centers bearings : List Vec3) : Vec3 → Vec3 :=
  Classical.arbitrary _

/-- Modelled from the spec: the internal convergence test of
`ceres::TinySolver` (gradient/step tolerances), left abstract. -/
noncomputable def tinySolverConverged (centers bearings : List Vec3) :
    Vec3 → Bool :=
  Classical.arbitrary _

/-- `PointRefinement` (lines 221–233): run the generic least-squares solver on
`BearingErrorCost` from the given point, with `max_num_iterations` set to the
caller-supplied iteration count, and return the refined point. -/
noncomputable def PointRefinement (centers bearings : List Vec3) (point : Vec3)
    (iterations : ℕ) : Vec3 :=
  (TinySolverRun (tinySolverStep centers bearings)
    (tinySolverConverged centers bearings) iterations point).1

/-- The number of solver iterations the `PointRefinement` call performs. -/
noncomputable def PointRefinementIterationCount (centers bearings : List Vec3)
    (point : Vec3) (iterations : ℕ) : ℕ :=
  (TinySolverRun (tinySolverStep centers bearings)
    (tinySolverConverged centers bearings) iterations point).2

/-- A pybind raster as the binding layer inspects it: its first two shape
entries `shape(0)` (rows) and `shape(1)` (columns). -/
structure PyArray where
  shape0 : ℕ
  shape1 : ℕ

/-- One native `AddView` invocation as forwarded by a wrapper: the trailing
`width, height` arguments are `shape(1), shape(0)` of the leading raster. -/
structure NativeAddView where
  width : ℕ
  height : ℕ

/-- `DepthmapEstimatorWrapper::AddView` (depthmap_bind.h, lines 10–20):
throws `std::invalid_argument` when image and mask differ in either
dimension; otherwise the native `DepthmapEstimator::AddView` is invoked with
`image.shape(1), image.shape(0)`. -/
def DepthmapEstimatorWrapperAddView (image mask : PyArray) :
    Except String NativeAddView :=
  if image.shape0 ≠ mask.shape0 ∨ image.shape1 ≠ mask.shape1 then
    .error "image and mask must have matching shapes."
  else
    .ok ⟨image.shape1, image.shape0⟩

/-- `DepthmapPrunerWrapper::AddView` (depthmap_bind.h, lines 107–127): throws
`std::invalid_argument` when depth differs from plane, color or label in
either dimension; otherwise the native `DepthmapPruner::AddView` is invoked
with `depth.shape(1), depth.shape(0)`. -/
def DepthmapPrunerWrapperAddView (depth plane color label : PyArray) :
    Except String NativeAddView :=
  if depth.shape0 ≠ plane.shape0 ∨ depth.shape1 ≠ plane.shape1 then
    .error "depth and plane must have matching shapes."
  else if depth.shape0 ≠ color.shape0 ∨ depth.shape1 ≠ color.shape1 then
    .error "depth and color must have matching shapes."
  else if depth.shape0 ≠ label.shape0 ∨ depth.shape1 ≠ label.shape1 then
    .error "depth and label must have matching shapes."
  else
    .ok ⟨depth.shape1, depth.shape0⟩

/-! ## Theorems -/

lemma arccos_lt_pi_of_neg_one_lt {x : ℝ} (h : -1 < x) : Real.arccos x < Real.pi := by
  have h1 := Real.neg_pi_div_two_le_arcsin x
  have h2 : Real.arcsin x ≠ -(Real.pi / 2) := by
    rw [Ne, Real.arcsin_eq_neg_pi_div_two]
    linarith
  have h3 : -(Real.pi / 2) < Real.arcsin x := lt_of_le_of_ne h1 (Ne.symm h2)
  rw [Real.arccos]
  linarith

lemma dot3_self_nonneg (u : Vec3) : 0 ≤ dot3 u u := by
  simp only [dot3]
  nlinarith [sq_nonneg u.x, sq_nonneg u.y, sq_nonneg u.z]

lemma dot3_neg_right (u v : Vec3) : dot3 u (Vec3.neg v) = -(dot3 u v) := by
  simp only [dot3, Vec3.neg]
  ring

lemma dot3_neg_self (u : Vec3) : dot3 (Vec3.neg u) (Vec3.neg u) = dot3 u u := by
  simp only [dot3, Vec3.neg]
  ring

lemma dot3_neg_left (u v : Vec3) : dot3 (Vec3.neg u) v = -(dot3 u v) := by
  simp only [dot3, Vec3.neg]
  ring

lemma angleBetweenVectors_self (u : Vec3) (hu : dot3 u u ≠ 0) :
    AngleBetweenVectors u u = 0 := by
  have hd : 0 < dot3 u u := lt_of_le_of_ne (dot3_self_nonneg u) (Ne.symm hu)
  simp only [AngleBetweenVectors]
  rw [Real.sqrt_mul_self hd.le, div_self hu]
  norm_num

lemma goodAngle_eq_true_iff (a θ : ℝ) :
    goodAngle a θ = true ↔ θ ≤ a ∧ a ≤ Real.pi - θ := by
  unfold goodAngle
  split_ifs with h <;> simp [h]

lemma anyGoodPair_eq_true_iff (count : ℕ) (vs : List Vec3) (θ : ℝ) :
    anyGoodPair count vs θ = true ↔
      ∃ i, i < count ∧ ∃ j, j < i ∧
        (θ ≤ AngleBetweenVectors (vs.getD i default) (vs.getD j default) ∧
         AngleBetweenVectors (vs.getD i default) (vs.getD j default) ≤
           Real.pi - θ) := by
  simp [anyGoodPair, List.any_eq_true, List.mem_range, goodAngle_eq_true_iff]

lemma anyGoodPair_eq_false_iff (count : ℕ) (vs : List Vec3) (θ : ℝ) :
    anyGoodPair count vs θ = false ↔
      ∀ i j, j < i → i < count →
        ¬(θ ≤ AngleBetweenVectors (vs.getD i default) (vs.getD j default) ∧
          AngleBetweenVectors (vs.getD i default) (vs.getD j default) ≤
            Real.pi - θ) := by
  rw [← Bool.not_eq_true, anyGoodPair_eq_true_iff]
  constructor
  · intro h i j hj hi hpq
    exact h ⟨i, hi, j, hj, hpq⟩
  · rintro h ⟨i, hi, j, hj, hpq⟩
    exact h i j hj hi hpq

/-- **C9.** For every pair of nonzero vectors, `AngleBetweenVectors` returns a
value in `[0, π)`: when the computed cosine has absolute value at least 1 it
returns 0 instead of evaluating `acos` outside its domain, and in particular
exactly antiparallel vectors (true angle π) are reported as angle 0. -/
theorem angleBetweenVectors_range_and_antiparallel (u v : Vec3)
    (hu : dot3 u u ≠ 0) (hv : dot3 v v ≠ 0) :
    (0 ≤ AngleBetweenVectors u v ∧ AngleBetweenVectors u v < Real.pi) ∧
      AngleBetweenVectors u (Vec3.neg u) = 0 := by
  constructor
  · simp only [AngleBetweenVectors]
    split_ifs with h
    · exact ⟨le_refl 0, Real.pi_pos⟩
    · push_neg at h
      have hneg : -1 < dot3 u v / Real.sqrt (dot3 u u * dot3 v v) :=
        (abs_lt.mp h).1
      exact ⟨Real.arccos_nonneg _, arccos_lt_pi_of_neg_one_lt hneg⟩
  · have hd : 0 < dot3 u u := lt_of_le_of_ne (dot3_self_nonneg u) (Ne.symm hu)
    simp only [AngleBetweenVectors, dot3_neg_right, dot3_neg_left, neg_neg]
    have hsqrt : Real.sqrt (dot3 u u * dot3 u u) = dot3 u u :=
      Real.sqrt_mul_self (le_of_lt hd)
    have hc : -(dot3 u u) / dot3 u u = -1 := by
      rw [neg_div, div_self hu]
    rw [hsqrt, hc]
    norm_num

/-- Witness for C9 at `u = (1,0,0)`, `v = (0,1,0)`. -/
theorem angleBetweenVectors_range_and_antiparallel_witness :
    (0 ≤ AngleBetweenVectors ⟨1, 0, 0⟩ ⟨0, 1, 0⟩ ∧
      AngleBetweenVectors ⟨1, 0, 0⟩ ⟨0, 1, 0⟩ < Real.pi) ∧
      AngleBetweenVectors ⟨1, 0, 0⟩ (Vec3.neg ⟨1, 0, 0⟩) = 0 :=
  angleBetweenVectors_range_and_antiparallel ⟨1, 0, 0⟩ ⟨0, 1, 0⟩
    (by norm_num [dot3]) (by norm_num [dot3])

/-- **C2.** For every input to `TriangulateBearingsDLT` and
`TriangulateBearingsMidpoint`, if no pair of views has an inter-ray parallax
angle within `[min_angle, π − min_angle]` (for the DLT these are the
world-frame bearings, for the midpoint the raw bearings), the function
returns with success flag `false` — whatever linear solve would be invoked —
and it never throws: the DLT result is total and the midpoint result is
`some` (no undefined `threshold_list` read is reached). -/
theorem triangulation_no_parallax_returns_false
    (Rts : List Mat34) (bearings centers bearingsM : List Vec3)
    (thresholdList : List ℝ)
    (threshold minAngle minDepth minAngleM minDepthM : ℝ)
    (hdlt : ∀ i j, j < i → i < Rts.length →
      ¬(minAngle ≤ AngleBetweenVectors
            ((worldBearings Rts bearings).getD i default)
            ((worldBearings Rts bearings).getD j default) ∧
        AngleBetweenVectors ((worldBearings Rts bearings).getD i default)
            ((worldBearings Rts bearings).getD j default) ≤
          Real.pi - minAngle))
    (hmid : ∀ i j, j < i → i < centers.length →
      ¬(minAngleM ≤ AngleBetweenVectors (bearingsM.getD i default)
            (bearingsM.getD j default) ∧
        AngleBetweenVectors (bearingsM.getD i default)
            (bearingsM.getD j default) ≤ Real.pi - minAngleM)) :
    (∀ solve, TriangulateBearingsDLTWith solve Rts bearings threshold minAngle
        minDepth = (false, Vec3.zero)) ∧
    TriangulateBearingsDLT Rts bearings threshold minAngle minDepth =
      (false, Vec3.zero) ∧
    (∀ solve, TriangulateBearingsMidpointWith solve centers bearingsM
        thresholdList minAngleM minDepthM = some (false, Vec3.zero)) ∧
    TriangulateBearingsMidpoint centers bearingsM thresholdList minAngleM
      minDepthM = some (false, Vec3.zero) := by
  have h1 : anyGoodPair Rts.length (worldBearings Rts bearings) minAngle = false :=
    (anyGoodPair_eq_false_iff _ _ _).mpr hdlt
  have h2 : anyGoodPair centers.length bearingsM minAngleM = false :=
    (anyGoodPair_eq_false_iff _ _ _).mpr hmid
  refine ⟨fun solve => ?_, ?_, fun solve => ?_, ?_⟩ <;>
    simp [TriangulateBearingsDLTWith, TriangulateBearingsMidpointWith,
      TriangulateBearingsDLT, TriangulateBearingsMidpoint, h1, h2]

/-- Witness for C2: two identical views looking along the x-axis (zero
parallax) with `min_angle = 1/10`. -/
theorem triangulation_no_parallax_returns_false_witness :
    (∀ solve, TriangulateBearingsDLTWith solve
        [⟨⟨1, 0, 0, 0⟩, ⟨0, 1, 0, 0⟩, ⟨0, 0, 1, 0⟩⟩,
         ⟨⟨1, 0, 0, 0⟩, ⟨0, 1, 0, 0⟩, ⟨0, 0, 1, 0⟩⟩]
        [⟨1, 0, 0⟩, ⟨1, 0, 0⟩] (1 / 100) (1 / 10) 0 = (false, Vec3.zero)) ∧
    TriangulateBearingsDLT
        [⟨⟨1, 0, 0, 0⟩, ⟨0, 1, 0, 0⟩, ⟨0, 0, 1, 0⟩⟩,
         ⟨⟨1, 0, 0, 0⟩, ⟨0, 1, 0, 0⟩, ⟨0, 0, 1, 0⟩⟩]
        [⟨1, 0, 0⟩, ⟨1, 0, 0⟩] (1 / 100) (1 / 10) 0 = (false, Vec3.zero) ∧
    (∀ solve, TriangulateBearingsMidpointWith solve
        [Vec3.zero, Vec3.zero] [⟨1, 0, 0⟩, ⟨1, 0, 0⟩] [1, 1] (1 / 10) 0 =
        some (false, Vec3.zero)) ∧
    TriangulateBearingsMidpoint
        [Vec3.zero, Vec3.zero] [⟨1, 0, 0⟩, ⟨1, 0, 0⟩] [1, 1] (1 / 10) 0 =
      some (false, Vec3.zero) := by
  have hang : AngleBetweenVectors (⟨1, 0, 0⟩ : Vec3) ⟨1, 0, 0⟩ = 0 :=
    angleBetweenVectors_self ⟨1, 0, 0⟩ (by norm_num [dot3])
  refine triangulation_no_parallax_returns_false _ _ _ _ _ _ _ _ _ _
    (fun i j hj hi => ?_) (fun i j hj hi => ?_)
  · simp only [List.length_cons, List.length_nil] at hi
    interval_cases i <;> interval_cases j <;>
      simp_all [worldBearings, Mat34.rotTransposeApply, hang]
  · simp only [List.length_cons, List.length_nil] at hi
    interval_cases i <;> interval_cases j <;> simp_all [hang]

/-- The per-view pass condition of the DLT post-check (lines 105–114). -/
noncomputable def dltViewPasses (Rts : List Mat34) (bearings : List Vec3)
    (threshold minDepth : ℝ) (X : Vec4) (i : ℕ) : Prop :=
  AngleBetweenVectors ((Rts.getD i default).apply X)
      (bearings.getD i default) ≤ threshold ∧
    minDepth ≤ dot3 ((Rts.getD i default).apply X) (bearings.getD i default)

/-- The homogeneous DLT solution dehomogenized by its fourth component
(`X /= X(3)`, line 103). -/
noncomputable def dltDehomogenized (Rts : List Mat34) (bearings : List Vec3) :
    Vec4 :=
  Vec4.smul (1 / (TriangulateBearingsDLTSolve bearings Rts).w)
    (TriangulateBearingsDLTSolve bearings Rts)

lemma dltViewOk_eq_true_iff (Rts : List Mat34) (bearings : List Vec3)
    (threshold minDepth : ℝ) (X : Vec4) (i : ℕ) :
    dltViewOk Rts bearings threshold minDepth X i = true ↔
      AngleBetweenVectors ((Rts.getD i default).apply X)
          (bearings.getD i default) ≤ threshold ∧
        minDepth ≤ dot3 ((Rts.getD i default).apply X)
          (bearings.getD i default) := by
  simp only [dltViewOk]
  split_ifs with h1 h2
  · simp only [Bool.false_eq_true, false_iff]
    rintro ⟨ha, _⟩
    exact absurd h1 (not_lt.mpr ha)
  · simp only [Bool.false_eq_true, false_iff]
    rintro ⟨_, hd⟩
    exact absurd h2 (not_lt.mpr hd)
  · simp only [true_iff]
    exact ⟨not_lt.mp h1, not_lt.mp h2⟩

/-- The per-view pass condition of the midpoint post-check (lines 166–175). -/
noncomputable def midpointViewPasses (centers bearings : List Vec3)
    (tl : List ℝ) (minDepth : ℝ) (X : Vec3) (k : ℕ) : Prop :=
  AngleBetweenVectors (X.sub (centers.getD k default))
      (bearings.getD k default) ≤ tl.getD k 0 ∧
    minDepth ≤ dot3 (X.sub (centers.getD k default)) (bearings.getD k default)

lemma midpointPostLoop_spec (centers bearings : List Vec3) (tl : List ℝ)
    (minDepth : ℝ) (X : Vec3) (count : ℕ) (hlen : count ≤ tl.length) :
    ∀ n i, count - i = n →
      ((midpointPostLoop centers bearings tl minDepth X count i =
          some (true, X) ↔
        ∀ k, i ≤ k → k < count →
          midpointViewPasses centers bearings tl minDepth X k) ∧
       (midpointPostLoop centers bearings tl minDepth X count i =
          some (true, X) ∨
        midpointPostLoop centers bearings tl minDepth X count i =
          some (false, Vec3.zero))) := by
  intro n
  induction n with
  | zero =>
    intro i hn
    have hi : ¬ i < count := by omega
    rw [midpointPostLoop]
    simp only [dif_neg hi]
    refine ⟨⟨fun _ k hk hkc => absurd hkc (by omega), fun _ => trivial⟩,
      Or.inl trivial⟩
  | succ n ih =>
    intro i hn
    have hi : i < count := by omega
    have hti : tl.get? i = some (tl.getD i 0) := by
      have hilen : i < tl.length := lt_of_lt_of_le hi hlen
      rw [List.getD_eq_getElem _ _ hilen]
      exact List.get?_eq_get hilen
    rw [midpointPostLoop]
    simp only [dif_pos hi, hti]
    have hrec := ih (i + 1) (by omega)
    split_ifs with h1 h2
    · constructor
      · simp only [Option.some_inj, Prod.mk.injEq, Bool.false_eq_true,
          false_and, false_iff]
        intro hall
        exact absurd h1 (not_lt.mpr ((hall i le_rfl hi).1)
          )
      · exact Or.inr rfl
    · constructor
      · simp only [Option.some_inj, Prod.mk.injEq, Bool.false_eq_true,
          false_and, false_iff]
        intro hall
        exact absurd h2 (not_lt.mpr ((hall i le_rfl hi).2))
      · exact Or.inr rfl
    · refine ⟨?_, hrec.2⟩
      rw [hrec.1]
      constructor
      · intro hall k hk hkc
        rcases Nat.eq_or_lt_of_le hk with hk1 | hk1
        · subst hk1
          exact ⟨not_lt.mp h1, not_lt.mp h2⟩
        · exact hall k hk1 hkc
      · intro hall k hk hkc
        exact hall k (by omega) hkc

/-- **C3.** For every input passing the parallax precondition,
`TriangulateBearingsDLT` and `TriangulateBearingsMidpoint` return success
exactly when every view's post-check passes: the angle between the
triangulated point's reprojected ray and the observed bearing stays within
the call's threshold (a single `threshold` for the DLT, `threshold_list[i]`
for the midpoint) and the inner product of projected and measured bearing is
at least `min_depth`; if any view violates either condition the whole call
returns the failure pair, even though the linear solve ran. -/
theorem triangulation_postcheck_gates_success
    (Rts : List Mat34) (bearings centers bearingsM : List Vec3) (tl : List ℝ)
    (threshold minAngle minDepth minAngleM minDepthM : ℝ)
    (hdlt : anyGoodPair Rts.length (worldBearings Rts bearings) minAngle = true)
    (hmid : anyGoodPair centers.length bearingsM minAngleM = true)
    (hlen : centers.length ≤ tl.length) :
    ((TriangulateBearingsDLT Rts bearings threshold minAngle minDepth =
        (true, (dltDehomogenized Rts bearings).head3) ↔
      ∀ i, i < Rts.length → dltViewPasses Rts bearings threshold minDepth
        (dltDehomogenized Rts bearings) i) ∧
     (TriangulateBearingsDLT Rts bearings threshold minAngle minDepth =
        (true, (dltDehomogenized Rts bearings).head3) ∨
      TriangulateBearingsDLT Rts bearings threshold minAngle minDepth =
        (false, Vec3.zero))) ∧
    ((TriangulateBearingsMidpoint centers bearingsM tl minAngleM minDepthM =
        some (true, TriangulateBearingsMidpointSolve centers bearingsM) ↔
      ∀ k, k < centers.length → midpointViewPasses centers bearingsM tl
        minDepthM (TriangulateBearingsMidpointSolve centers bearingsM) k) ∧
     (TriangulateBearingsMidpoint centers bearingsM tl minAngleM minDepthM =
        some (true, TriangulateBearingsMidpointSolve centers bearingsM) ∨
      TriangulateBearingsMidpoint centers bearingsM tl minAngleM minDepthM =
        some (false, Vec3.zero))) := by
  constructor
  · simp only [TriangulateBearingsDLT, TriangulateBearingsDLTWith, hdlt,
      if_true]
    have hallIff : ((List.range Rts.length).all fun i =>
        dltViewOk Rts bearings threshold minDepth
          (dltDehomogenized Rts bearings) i) = true ↔
        ∀ i, i < Rts.length → dltViewPasses Rts bearings threshold minDepth
          (dltDehomogenized Rts bearings) i := by
      simp [List.all_eq_true, List.mem_range, dltViewOk_eq_true_iff,
        dltViewPasses]
    by_cases hall : ((List.range Rts.length).all fun i =>
        dltViewOk Rts bearings threshold minDepth
          (dltDehomogenized Rts bearings) i) = true
    · rw [show (Vec4.smul (1 / (TriangulateBearingsDLTSolve bearings Rts).w)
          (TriangulateBearingsDLTSolve bearings Rts)) =
          dltDehomogenized Rts bearings from rfl, if_pos hall]
      exact ⟨⟨fun _ => hallIff.mp hall, fun _ => rfl⟩, Or.inl rfl⟩
    · rw [show (Vec4.smul (1 / (TriangulateBearingsDLTSolve bearings Rts).w)
          (TriangulateBearingsDLTSolve bearings Rts)) =
          dltDehomogenized Rts bearings from rfl, if_neg hall]
      refine ⟨⟨fun habs => ?_, fun hall2 => absurd (hallIff.mpr hall2) hall⟩,
        Or.inr rfl⟩
      exact absurd (congrArg Prod.fst habs) (by simp)
  · simp only [TriangulateBearingsMidpoint, TriangulateBearingsMidpointWith,
      hmid, if_true]
    have hspec := midpointPostLoop_spec centers bearingsM tl minDepthM
      (TriangulateBearingsMidpointSolve centers bearingsM) centers.length hlen
      centers.length 0 (by omega)
    refine ⟨?_, hspec.2⟩
    rw [hspec.1]
    exact ⟨fun h k hk => h k (Nat.zero_le k) hk, fun h k _ hk => h k hk⟩

lemma angle_e2_e1 : AngleBetweenVectors ⟨0, 1, 0⟩ ⟨1, 0, 0⟩ = Real.pi / 2 := by
  simp only [AngleBetweenVectors, dot3]
  norm_num [Real.sqrt_one, Real.arccos_zero]

lemma goodAngle_pi_div_two : goodAngle (Real.pi / 2) (1 / 10) = true := by
  rw [goodAngle_eq_true_iff]
  constructor <;> nlinarith [Real.pi_gt_three]

/-- Witness for C3: two orthogonal views (parallax π/2) with
`min_angle = 1/10`; the theorem's characterization holds at this input. -/
theorem triangulation_postcheck_gates_success_witness :
    ((TriangulateBearingsDLT
        [⟨⟨1, 0, 0, 0⟩, ⟨0, 1, 0, 0⟩, ⟨0, 0, 1, 0⟩⟩,
         ⟨⟨1, 0, 0, 0⟩, ⟨0, 1, 0, 0⟩, ⟨0, 0, 1, 0⟩⟩]
        [⟨1, 0, 0⟩, ⟨0, 1, 0⟩] (1 / 100) (1 / 10) 0 =
        (true, (dltDehomogenized
          [⟨⟨1, 0, 0, 0⟩, ⟨0, 1, 0, 0⟩, ⟨0, 0, 1, 0⟩⟩,
           ⟨⟨1, 0, 0, 0⟩, ⟨0, 1, 0, 0⟩, ⟨0, 0, 1, 0⟩⟩]
          [⟨1, 0, 0⟩, ⟨0, 1, 0⟩]).head3) ↔
      ∀ i, i < (([⟨⟨1, 0, 0, 0⟩, ⟨0, 1, 0, 0⟩, ⟨0, 0, 1, 0⟩⟩,
           ⟨⟨1, 0, 0, 0⟩, ⟨0, 1, 0, 0⟩, ⟨0, 0, 1, 0⟩⟩] : List Mat34)).length →
        dltViewPasses
          [⟨⟨1, 0, 0, 0⟩, ⟨0, 1, 0, 0⟩, ⟨0, 0, 1, 0⟩⟩,
           ⟨⟨1, 0, 0, 0⟩, ⟨0, 1, 0, 0⟩, ⟨0, 0, 1, 0⟩⟩]
          [⟨1, 0, 0⟩, ⟨0, 1, 0⟩] (1 / 100) 0
          (dltDehomogenized
            [⟨⟨1, 0, 0, 0⟩, ⟨0, 1, 0, 0⟩, ⟨0, 0, 1, 0⟩⟩,
             ⟨⟨1, 0, 0, 0⟩, ⟨0, 1, 0, 0⟩, ⟨0, 0, 1, 0⟩⟩]
            [⟨1, 0, 0⟩, ⟨0, 1, 0⟩]) i) ∧
     (TriangulateBearingsDLT
        [⟨⟨1, 0, 0, 0⟩, ⟨0, 1, 0, 0⟩, ⟨0, 0, 1, 0⟩⟩,
         ⟨⟨1, 0, 0, 0⟩, ⟨0, 1, 0, 0⟩, ⟨0, 0, 1, 0⟩⟩]
        [⟨1, 0, 0⟩, ⟨0, 1, 0⟩] (1 / 100) (1 / 10) 0 =
        (true, (dltDehomogenized
          [⟨⟨1, 0, 0, 0⟩, ⟨0, 1, 0, 0⟩, ⟨0, 0, 1, 0⟩⟩,
           ⟨⟨1, 0, 0, 0⟩, ⟨0, 1, 0, 0⟩, ⟨0, 0, 1, 0⟩⟩]
          [⟨1, 0, 0⟩, ⟨0, 1, 0⟩]).head3) ∨
      TriangulateBearingsDLT
        [⟨⟨1, 0, 0, 0⟩, ⟨0, 1, 0, 0⟩, ⟨0, 0, 1, 0⟩⟩,
         ⟨⟨1, 0, 0, 0⟩, ⟨0, 1, 0, 0⟩, ⟨0, 0, 1, 0⟩⟩]
        [⟨1, 0, 0⟩, ⟨0, 1, 0⟩] (1 / 100) (1 / 10) 0 = (false, Vec3.zero))) ∧
    ((TriangulateBearingsMidpoint [Vec3.zero, ⟨1, 0, 0⟩]
        [⟨1, 0, 0⟩, ⟨0, 1, 0⟩] [1, 1] (1 / 10) 0 =
        some (true, TriangulateBearingsMidpointSolve [Vec3.zero, ⟨1, 0, 0⟩]
          [⟨1, 0, 0⟩, ⟨0, 1, 0⟩]) ↔
      ∀ k, k < (([Vec3.zero, ⟨1, 0, 0⟩] : List Vec3)).length →
        midpointViewPasses [Vec3.zero, ⟨1, 0, 0⟩] [⟨1, 0, 0⟩, ⟨0, 1, 0⟩]
          [1, 1] 0
          (TriangulateBearingsMidpointSolve [Vec3.zero, ⟨1, 0, 0⟩]
            [⟨1, 0, 0⟩, ⟨0, 1, 0⟩]) k) ∧
     (TriangulateBearingsMidpoint [Vec3.zero, ⟨1, 0, 0⟩]
        [⟨1, 0, 0⟩, ⟨0, 1, 0⟩] [1, 1] (1 / 10) 0 =
        some (true, TriangulateBearingsMidpointSolve [Vec3.zero, ⟨1, 0, 0⟩]
          [⟨1, 0, 0⟩, ⟨0, 1, 0⟩]) ∨
      TriangulateBearingsMidpoint [Vec3.zero, ⟨1, 0, 0⟩]
        [⟨1, 0, 0⟩, ⟨0, 1, 0⟩] [1, 1] (1 / 10) 0 =
        some (false, Vec3.zero))) := by
  have hws : worldBearings
      [⟨⟨1, 0, 0, 0⟩, ⟨0, 1, 0, 0⟩, ⟨0, 0, 1, 0⟩⟩,
       ⟨⟨1, 0, 0, 0⟩, ⟨0, 1, 0, 0⟩, ⟨0, 0, 1, 0⟩⟩]
      [⟨1, 0, 0⟩, ⟨0, 1, 0⟩] = [⟨1, 0, 0⟩, ⟨0, 1, 0⟩] := by
    simp [worldBearings, Mat34.rotTransposeApply,
      show List.range 2 = [0, 1] from by decide]
  refine triangulation_postcheck_gates_success _ _ _ _ _ _ _ _ _ _ ?_ ?_
    (by norm_num)
  · rw [show ([⟨⟨1, 0, 0, 0⟩, ⟨0, 1, 0, 0⟩, ⟨0, 0, 1, 0⟩⟩,
       ⟨⟨1, 0, 0, 0⟩, ⟨0, 1, 0, 0⟩, ⟨0, 0, 1, 0⟩⟩] : List Mat34).length = 2
       from rfl, hws]
    rw [anyGoodPair_eq_true_iff]
    refine ⟨1, by norm_num, 0, by norm_num, ?_⟩
    simp only [List.getD_cons_succ, List.getD_cons_zero, angle_e2_e1]
    constructor <;> nlinarith [Real.pi_gt_three]
  · rw [show ([Vec3.zero, ⟨1, 0, 0⟩] : List Vec3).length = 2 from rfl,
      anyGoodPair_eq_true_iff]
    refine ⟨1, by norm_num, 0, by norm_num, ?_⟩
    simp only [List.getD_cons_succ, List.getD_cons_zero, angle_e2_e1]
    constructor <;> nlinarith [Real.pi_gt_three]

lemma flatMap_pair_length {α β : Type} (f g : α → β) (l : List α) :
    (l.flatMap fun a => [f a, g a]).length = 2 * l.length := by
  induction l with
  | nil => simp
  | cons a t ih =>
    simp only [List.flatMap_cons, List.length_cons, List.length_append, ih]
    simp
    omega

lemma flatMap_pair_getD {α β : Type} (f g : α → β) (d0 : α) (d : β) :
    ∀ (l : List α) (i : ℕ), i < l.length →
      (l.flatMap fun a => [f a, g a]).getD (2 * i) d = f (l.getD i d0) ∧
      (l.flatMap fun a => [f a, g a]).getD (2 * i + 1) d = g (l.getD i d0) := by
  intro l
  induction l with
  | nil =>
    intro i hi
    simp at hi
  | cons a t ih =>
    intro i hi
    cases i with
    | zero => simp [List.flatMap_cons]
    | succ k =>
      have hk : k < t.length := by
        simpa using hi
      have h2 : 2 * (k + 1) = 2 * k + 1 + 1 := by omega
      rw [h2]
      simp only [List.flatMap_cons, List.cons_append, List.nil_append,
        List.getD_cons_succ]
      exact ih k hk

lemma dlt_rows_annihilate (b : Vec3) (Rt : Mat34) (X : Vec4) (lam : ℝ)
    (h : b = Vec3.smul lam (Rt.apply X)) :
    dot4 (Vec4.sub (Vec4.smul b.x Rt.r2) (Vec4.smul b.z Rt.r0)) X = 0 ∧
      dot4 (Vec4.sub (Vec4.smul b.y Rt.r2) (Vec4.smul b.z Rt.r1)) X = 0 := by
  subst h
  simp only [Vec3.smul, Mat34.apply, dot4, Vec4.sub, Vec4.smul]
  constructor <;> ring

lemma svdSmallestSingularVector_spec (A : List Vec4)
    (h : ∃ v, IsSmallestSingularVector A v) :
    IsSmallestSingularVector A (svdSmallestSingularVector A) := by
  simp only [svdSmallestSingularVector]
  rw [dif_pos h]
  exact h.choose_spec

lemma zip_getD {α β : Type} (d1 : α) (d2 : β) :
    ∀ (l1 : List α) (l2 : List β) (i : ℕ), i < l1.length → i < l2.length →
      (List.zip l1 l2).getD i (d1, d2) = (l1.getD i d1, l2.getD i d2) := by
  intro l1
  induction l1 with
  | nil =>
    intro l2 i hi _
    simp at hi
  | cons a t ih =>
    intro l2 i hi1 hi2
    cases l2 with
    | nil => simp at hi2
    | cons b s =>
      cases i with
      | zero => simp
      | succ k =>
        simp only [List.zip_cons_cons, List.getD_cons_succ]
        exact ih s k (by simpa using hi1) (by simpa using hi2)

lemma dltSystem_getD (bearings : List Vec3) (Rts : List Mat34) (i : ℕ)
    (h1 : i < bearings.length) (h2 : i < Rts.length) :
    (dltSystem bearings Rts).getD (2 * i) default =
      Vec4.sub (Vec4.smul (bearings.getD i default).x (Rts.getD i default).r2)
        (Vec4.smul (bearings.getD i default).z (Rts.getD i default).r0) ∧
    (dltSystem bearings Rts).getD (2 * i + 1) default =
      Vec4.sub (Vec4.smul (bearings.getD i default).y (Rts.getD i default).r2)
        (Vec4.smul (bearings.getD i default).z (Rts.getD i default).r1) := by
  have hz : i < (List.zip bearings Rts).length := by
    rw [List.length_zip]
    omega
  have hpair := flatMap_pair_getD
    (fun p : Vec3 × Mat34 =>
      Vec4.sub (Vec4.smul p.1.x p.2.r2) (Vec4.smul p.1.z p.2.r0))
    (fun p : Vec3 × Mat34 =>
      Vec4.sub (Vec4.smul p.1.y p.2.r2) (Vec4.smul p.1.z p.2.r1))
    (default, default) default (List.zip bearings Rts) i hz
  rw [zip_getD default default bearings Rts i h1 h2] at hpair
  exact hpair

/-- **C4.** For every list of N ≥ 2 pose matrices and N bearings,
`TriangulateBearingsDLTSolve` builds a 2N×4 homogeneous system with exactly
two rows per bearing — row 2i = b_x·Rt.row(2) − b_z·Rt.row(0) and
row 2i+1 = b_y·Rt.row(2) − b_z·Rt.row(1), so any point whose projection is
proportional to the bearing (the unknown scale) is annihilated by both rows —
solves it by taking the singular vector of the smallest singular value, and
the caller dehomogenizes the 4-vector by dividing by its fourth component. -/
theorem dltSolve_system_structure (Rts : List Mat34) (bearings : List Vec3)
    (hlen : bearings.length = Rts.length) (hN : 2 ≤ Rts.length) :
    (dltSystem bearings Rts).length = 2 * Rts.length ∧
    (∀ i, i < Rts.length →
      (dltSystem bearings Rts).getD (2 * i) default =
        Vec4.sub
          (Vec4.smul (bearings.getD i default).x (Rts.getD i default).r2)
          (Vec4.smul (bearings.getD i default).z (Rts.getD i default).r0) ∧
      (dltSystem bearings Rts).getD (2 * i + 1) default =
        Vec4.sub
          (Vec4.smul (bearings.getD i default).y (Rts.getD i default).r2)
          (Vec4.smul (bearings.getD i default).z (Rts.getD i default).r1)) ∧
    (∀ i, i < Rts.length → ∀ X lam,
      bearings.getD i default = Vec3.smul lam ((Rts.getD i default).apply X) →
      dot4 ((dltSystem bearings Rts).getD (2 * i) default) X = 0 ∧
      dot4 ((dltSystem bearings Rts).getD (2 * i + 1) default) X = 0) ∧
    TriangulateBearingsDLTSolve bearings Rts =
      svdSmallestSingularVector (dltSystem bearings Rts) ∧
    ((∃ v, IsSmallestSingularVector (dltSystem bearings Rts) v) →
      IsSmallestSingularVector (dltSystem bearings Rts)
        (TriangulateBearingsDLTSolve bearings Rts)) ∧
    (∀ threshold minAngle minDepth p,
      TriangulateBearingsDLT Rts bearings threshold minAngle minDepth =
        (true, p) →
      p = (Vec4.smul (1 / (TriangulateBearingsDLTSolve bearings Rts).w)
        (TriangulateBearingsDLTSolve bearings Rts)).head3) := by
  refine ⟨?_, ?_, ?_, rfl, ?_, ?_⟩
  · have h := flatMap_pair_length
      (fun p : Vec3 × Mat34 =>
        Vec4.sub (Vec4.smul p.1.x p.2.r2) (Vec4.smul p.1.z p.2.r0))
      (fun p : Vec3 × Mat34 =>
        Vec4.sub (Vec4.smul p.1.y p.2.r2) (Vec4.smul p.1.z p.2.r1))
      (List.zip bearings Rts)
    have hz : (List.zip bearings Rts).length = Rts.length := by
      rw [List.length_zip]
      omega
    exact h.trans (by rw [hz])
  · exact fun i hi => dltSystem_getD bearings Rts i (by omega) hi
  · intro i hi X lam hprop
    have hget := dltSystem_getD bearings Rts i (by omega) hi
    rw [hget.1, hget.2]
    exact dlt_rows_annihilate _ _ X lam hprop
  · exact svdSmallestSingularVector_spec _
  · intro threshold minAngle minDepth p h
    simp only [TriangulateBearingsDLT, TriangulateBearingsDLTWith] at h
    split_ifs at h with h1 h2
    · simp only [Prod.mk.injEq, true_and] at h
      exact h.symm
    · simp at h
    · simp at h

/-- Witness for C4 at two identity poses and orthogonal bearings. -/
theorem dltSolve_system_structure_witness :
    (dltSystem [⟨1, 0, 0⟩, ⟨0, 1, 0⟩] [⟨⟨1, 0, 0, 0⟩, ⟨0, 1, 0, 0⟩, ⟨0, 0, 1, 0⟩⟩, ⟨⟨1, 0, 0, 0⟩, ⟨0, 1, 0, 0⟩, ⟨0, 0, 1, 0⟩⟩]).length = 2 * ([⟨⟨1, 0, 0, 0⟩, ⟨0, 1, 0, 0⟩, ⟨0, 0, 1, 0⟩⟩, ⟨⟨1, 0, 0, 0⟩, ⟨0, 1, 0, 0⟩, ⟨0, 0, 1, 0⟩⟩] : List Mat34).length ∧
    (∀ i, i < ([⟨⟨1, 0, 0, 0⟩, ⟨0, 1, 0, 0⟩, ⟨0, 0, 1, 0⟩⟩, ⟨⟨1, 0, 0, 0⟩, ⟨0, 1, 0, 0⟩, ⟨0, 0, 1, 0⟩⟩] : List Mat34).length →
      (dltSystem [⟨1, 0, 0⟩, ⟨0, 1, 0⟩] [⟨⟨1, 0, 0, 0⟩, ⟨0, 1, 0, 0⟩, ⟨0, 0, 1, 0⟩⟩, ⟨⟨1, 0, 0, 0⟩, ⟨0, 1, 0, 0⟩, ⟨0, 0, 1, 0⟩⟩]).getD (2 * i) default =
        Vec4.sub
          (Vec4.smul (([⟨1, 0, 0⟩, ⟨0, 1, 0⟩] : List Vec3).getD i default).x
            (([⟨⟨1, 0, 0, 0⟩, ⟨0, 1, 0, 0⟩, ⟨0, 0, 1, 0⟩⟩, ⟨⟨1, 0, 0, 0⟩, ⟨0, 1, 0, 0⟩, ⟨0, 0, 1, 0⟩⟩] : List Mat34).getD i default).r2)
          (Vec4.smul (([⟨1, 0, 0⟩, ⟨0, 1, 0⟩] : List Vec3).getD i default).z
            (([⟨⟨1, 0, 0, 0⟩, ⟨0, 1, 0, 0⟩, ⟨0, 0, 1, 0⟩⟩, ⟨⟨1, 0, 0, 0⟩, ⟨0, 1, 0, 0⟩, ⟨0, 0, 1, 0⟩⟩] : List Mat34).getD i default).r0) ∧
      (dltSystem [⟨1, 0, 0⟩, ⟨0, 1, 0⟩] [⟨⟨1, 0, 0, 0⟩, ⟨0, 1, 0, 0⟩, ⟨0, 0, 1, 0⟩⟩, ⟨⟨1, 0, 0, 0⟩, ⟨0, 1, 0, 0⟩, ⟨0, 0, 1, 0⟩⟩]).getD (2 * i + 1) default =
        Vec4.sub
          (Vec4.smul (([⟨1, 0, 0⟩, ⟨0, 1, 0⟩] : List Vec3).getD i default).y
            (([⟨⟨1, 0, 0, 0⟩, ⟨0, 1, 0, 0⟩, ⟨0, 0, 1, 0⟩⟩, ⟨⟨1, 0, 0, 0⟩, ⟨0, 1, 0, 0⟩, ⟨0, 0, 1, 0⟩⟩] : List Mat34).getD i default).r2)
          (Vec4.smul (([⟨1, 0, 0⟩, ⟨0, 1, 0⟩] : List Vec3).getD i default).z
            (([⟨⟨1, 0, 0, 0⟩, ⟨0, 1, 0, 0⟩, ⟨0, 0, 1, 0⟩⟩, ⟨⟨1, 0, 0, 0⟩, ⟨0, 1, 0, 0⟩, ⟨0, 0, 1, 0⟩⟩] : List Mat34).getD i default).r1)) ∧
    (∀ i, i < ([⟨⟨1, 0, 0, 0⟩, ⟨0, 1, 0, 0⟩, ⟨0, 0, 1, 0⟩⟩, ⟨⟨1, 0, 0, 0⟩, ⟨0, 1, 0, 0⟩, ⟨0, 0, 1, 0⟩⟩] : List Mat34).length → ∀ X lam,
      ([⟨1, 0, 0⟩, ⟨0, 1, 0⟩] : List Vec3).getD i default =
        Vec3.smul lam ((([⟨⟨1, 0, 0, 0⟩, ⟨0, 1, 0, 0⟩, ⟨0, 0, 1, 0⟩⟩, ⟨⟨1, 0, 0, 0⟩, ⟨0, 1, 0, 0⟩, ⟨0, 0, 1, 0⟩⟩] : List Mat34).getD i default).apply X) →
      dot4 ((dltSystem [⟨1, 0, 0⟩, ⟨0, 1, 0⟩] [⟨⟨1, 0, 0, 0⟩, ⟨0, 1, 0, 0⟩, ⟨0, 0, 1, 0⟩⟩, ⟨⟨1, 0, 0, 0⟩, ⟨0, 1, 0, 0⟩, ⟨0, 0, 1, 0⟩⟩]).getD (2 * i) default) X = 0 ∧
      dot4 ((dltSystem [⟨1, 0, 0⟩, ⟨0, 1, 0⟩] [⟨⟨1, 0, 0, 0⟩, ⟨0, 1, 0, 0⟩, ⟨0, 0, 1, 0⟩⟩, ⟨⟨1, 0, 0, 0⟩, ⟨0, 1, 0, 0⟩, ⟨0, 0, 1, 0⟩⟩]).getD (2 * i + 1) default) X = 0) ∧
    TriangulateBearingsDLTSolve [⟨1, 0, 0⟩, ⟨0, 1, 0⟩] [⟨⟨1, 0, 0, 0⟩, ⟨0, 1, 0, 0⟩, ⟨0, 0, 1, 0⟩⟩, ⟨⟨1, 0, 0, 0⟩, ⟨0, 1, 0, 0⟩, ⟨0, 0, 1, 0⟩⟩] =
      svdSmallestSingularVector (dltSystem [⟨1, 0, 0⟩, ⟨0, 1, 0⟩] [⟨⟨1, 0, 0, 0⟩, ⟨0, 1, 0, 0⟩, ⟨0, 0, 1, 0⟩⟩, ⟨⟨1, 0, 0, 0⟩, ⟨0, 1, 0, 0⟩, ⟨0, 0, 1, 0⟩⟩]) ∧
    ((∃ v, IsSmallestSingularVector (dltSystem [⟨1, 0, 0⟩, ⟨0, 1, 0⟩] [⟨⟨1, 0, 0, 0⟩, ⟨0, 1, 0, 0⟩, ⟨0, 0, 1, 0⟩⟩, ⟨⟨1, 0, 0, 0⟩, ⟨0, 1, 0, 0⟩, ⟨0, 0, 1, 0⟩⟩]) v) →
      IsSmallestSingularVector (dltSystem [⟨1, 0, 0⟩, ⟨0, 1, 0⟩] [⟨⟨1, 0, 0, 0⟩, ⟨0, 1, 0, 0⟩, ⟨0, 0, 1, 0⟩⟩, ⟨⟨1, 0, 0, 0⟩, ⟨0, 1, 0, 0⟩, ⟨0, 0, 1, 0⟩⟩])
        (TriangulateBearingsDLTSolve [⟨1, 0, 0⟩, ⟨0, 1, 0⟩] [⟨⟨1, 0, 0, 0⟩, ⟨0, 1, 0, 0⟩, ⟨0, 0, 1, 0⟩⟩, ⟨⟨1, 0, 0, 0⟩, ⟨0, 1, 0, 0⟩, ⟨0, 0, 1, 0⟩⟩])) ∧
    (∀ threshold minAngle minDepth p,
      TriangulateBearingsDLT [⟨⟨1, 0, 0, 0⟩, ⟨0, 1, 0, 0⟩, ⟨0, 0, 1, 0⟩⟩, ⟨⟨1, 0, 0, 0⟩, ⟨0, 1, 0, 0⟩, ⟨0, 0, 1, 0⟩⟩] [⟨1, 0, 0⟩, ⟨0, 1, 0⟩] threshold minAngle minDepth =
        (true, p) →
      p = (Vec4.smul (1 / (TriangulateBearingsDLTSolve [⟨1, 0, 0⟩, ⟨0, 1, 0⟩] [⟨⟨1, 0, 0, 0⟩, ⟨0, 1, 0, 0⟩, ⟨0, 0, 1, 0⟩⟩, ⟨⟨1, 0, 0, 0⟩, ⟨0, 1, 0, 0⟩, ⟨0, 0, 1, 0⟩⟩]).w)
        (TriangulateBearingsDLTSolve [⟨1, 0, 0⟩, ⟨0, 1, 0⟩] [⟨⟨1, 0, 0, 0⟩, ⟨0, 1, 0, 0⟩, ⟨0, 0, 1, 0⟩⟩, ⟨⟨1, 0, 0, 0⟩, ⟨0, 1, 0, 0⟩, ⟨0, 0, 1, 0⟩⟩])).head3) :=
  dltSolve_system_structure [⟨⟨1, 0, 0, 0⟩, ⟨0, 1, 0, 0⟩, ⟨0, 0, 1, 0⟩⟩, ⟨⟨1, 0, 0, 0⟩, ⟨0, 1, 0, 0⟩, ⟨0, 0, 1, 0⟩⟩] [⟨1, 0, 0⟩, ⟨0, 1, 0⟩] (by norm_num) (by norm_num)

lemma range_map_getD {β : Type} [Inhabited β] (n : ℕ) (f : ℕ → β) (i : ℕ)
    (hi : i < n) :
    ((List.range n).map f).getD i default = f i := by
  have hlen : i < ((List.range n).map f).length := by simpa using hi
  rw [List.getD_eq_getElem _ _ hlen]
  simp

/-- **C7.** For every pair of equally sized bearing batches, relative
rotation and translation, `TriangulateTwoBearingsMidpointMany` returns one
(success flag, 3-vector) pair per correspondence; the i-th result is the
closed-form two-ray midpoint solve applied to centers `{origin, translation}`
and bearings `{bearings1.row(i), rotation · bearings2.row(i)}`.  The solve
itself needs no general linear solver: on a non-degenerate pair it reports
success and returns the midpoint of the two closest ray points, whose ray
parameters satisfy the two normal equations exactly. -/
theorem twoBearingsMidpointMany_structure (bearings1 bearings2 : List Vec3)
    (rotation : Mat3) (translation : Vec3)
    (hlen : bearings1.length = bearings2.length) :
    (TriangulateTwoBearingsMidpointMany bearings1 bearings2 rotation
        translation).length = bearings1.length ∧
    (∀ i, i < bearings1.length →
      (TriangulateTwoBearingsMidpointMany bearings1 bearings2 rotation
          translation).getD i default =
        TriangulateTwoBearingsMidpointSolve Vec3.zero translation
          (bearings1.getD i default)
          (rotation.apply (bearings2.getD i default))) ∧
    (∀ o1 o2 b1 b2 : Vec3,
      dot3 b1 b1 * dot3 b2 b2 - dot3 b1 b2 * dot3 b1 b2 ≠ 0 →
      (TriangulateTwoBearingsMidpointSolve o1 o2 b1 b2).1 = true ∧
      ∃ l1 l2 : ℝ,
        (TriangulateTwoBearingsMidpointSolve o1 o2 b1 b2).2 =
          Vec3.smul (1 / 2)
            ((o1.add (Vec3.smul l1 b1)).add (o2.add (Vec3.smul l2 b2))) ∧
        dot3 b1 ((o1.add (Vec3.smul l1 b1)).sub (o2.add (Vec3.smul l2 b2))) =
          0 ∧
        dot3 b2 ((o1.add (Vec3.smul l1 b1)).sub (o2.add (Vec3.smul l2 b2))) =
          0) := by
  refine ⟨by simp [TriangulateTwoBearingsMidpointMany], ?_, ?_⟩
  · intro i hi
    exact range_map_getD bearings1.length _ i hi
  · intro o1 o2 b1 b2 hdet
    simp only [TriangulateTwoBearingsMidpointSolve]
    rw [if_neg hdet]
    refine ⟨rfl, (dot3 b2 b2 * dot3 (o2.sub o1) b1 -
        dot3 b1 b2 * dot3 (o2.sub o1) b2) /
        (dot3 b1 b1 * dot3 b2 b2 - dot3 b1 b2 * dot3 b1 b2),
      (dot3 b1 b2 * dot3 (o2.sub o1) b1 -
        dot3 b1 b1 * dot3 (o2.sub o1) b2) /
        (dot3 b1 b1 * dot3 b2 b2 - dot3 b1 b2 * dot3 b1 b2), rfl, ?_, ?_⟩ <;>
    · simp only [dot3, Vec3.add, Vec3.sub, Vec3.smul] at hdet ⊢
      field_simp
      ring

/-- Witness for C7 at a single correspondence, identity rotation and unit
baseline. -/
theorem twoBearingsMidpointMany_structure_witness :
    (TriangulateTwoBearingsMidpointMany [(⟨0, 0, 1⟩ : Vec3)] [(⟨0, 0, 1⟩ : Vec3)] (⟨⟨1, 0, 0⟩, ⟨0, 1, 0⟩, ⟨0, 0, 1⟩⟩ : Mat3)
        (⟨1, 0, 0⟩ : Vec3)).length = ([(⟨0, 0, 1⟩ : Vec3)] : List Vec3).length ∧
    (∀ i, i < ([(⟨0, 0, 1⟩ : Vec3)] : List Vec3).length →
      (TriangulateTwoBearingsMidpointMany [(⟨0, 0, 1⟩ : Vec3)] [(⟨0, 0, 1⟩ : Vec3)] (⟨⟨1, 0, 0⟩, ⟨0, 1, 0⟩, ⟨0, 0, 1⟩⟩ : Mat3)
          (⟨1, 0, 0⟩ : Vec3)).getD i default =
        TriangulateTwoBearingsMidpointSolve Vec3.zero (⟨1, 0, 0⟩ : Vec3)
          (([(⟨0, 0, 1⟩ : Vec3)] : List Vec3).getD i default)
          ((⟨⟨1, 0, 0⟩, ⟨0, 1, 0⟩, ⟨0, 0, 1⟩⟩ : Mat3).apply (([(⟨0, 0, 1⟩ : Vec3)] : List Vec3).getD i default))) ∧
    (∀ o1 o2 b1 b2 : Vec3,
      dot3 b1 b1 * dot3 b2 b2 - dot3 b1 b2 * dot3 b1 b2 ≠ 0 →
      (TriangulateTwoBearingsMidpointSolve o1 o2 b1 b2).1 = true ∧
      ∃ l1 l2 : ℝ,
        (TriangulateTwoBearingsMidpointSolve o1 o2 b1 b2).2 =
          Vec3.smul (1 / 2)
            ((o1.add (Vec3.smul l1 b1)).add (o2.add (Vec3.smul l2 b2))) ∧
        dot3 b1 ((o1.add (Vec3.smul l1 b1)).sub (o2.add (Vec3.smul l2 b2))) =
          0 ∧
        dot3 b2 ((o1.add (Vec3.smul l1 b1)).sub (o2.add (Vec3.smul l2 b2))) =
          0) :=
  twoBearingsMidpointMany_structure [(⟨0, 0, 1⟩ : Vec3)] [(⟨0, 0, 1⟩ : Vec3)] (⟨⟨1, 0, 0⟩, ⟨0, 1, 0⟩, ⟨0, 0, 1⟩⟩ : Mat3) (⟨1, 0, 0⟩ : Vec3) (by norm_num)

/-- **C10.** `TriangulateBearingsMidpoint` reads `threshold_list[i]` inside
its post-check loop, for view indices up to `centers.rows() - 1`, without
checking the length of `threshold_list`: whenever the list has at least as
many entries as there are views the call is fully defined (`some`), and there
are inputs with a shorter list on which the undefined out-of-range read is
reached (modelled as `none`): two views with valid parallax and an empty
threshold list. -/
theorem midpoint_thresholdList_unchecked_precondition (centers bearings : List Vec3)
    (tl : List ℝ) (minAngle minDepth : ℝ)
    (hlen : centers.length ≤ tl.length) :
    (TriangulateBearingsMidpoint centers bearings tl minAngle
        minDepth).isSome = true ∧
    TriangulateBearingsMidpoint [Vec3.zero, ⟨1, 0, 0⟩]
      [⟨1, 0, 0⟩, ⟨0, 1, 0⟩] [] (1 / 10) 0 = none := by
  constructor
  · by_cases hg : anyGoodPair centers.length bearings minAngle = true
    · simp only [TriangulateBearingsMidpoint, TriangulateBearingsMidpointWith,
        hg, if_true]
      have hspec := midpointPostLoop_spec centers bearings tl minDepth
        (TriangulateBearingsMidpointSolve centers bearings) centers.length
        hlen centers.length 0 (by omega)
      rcases hspec.2 with h | h <;> simp [h]
    · simp [TriangulateBearingsMidpoint, TriangulateBearingsMidpointWith, hg]
  · have hg2 : anyGoodPair ([Vec3.zero, ⟨1, 0, 0⟩] : List Vec3).length
        [⟨1, 0, 0⟩, ⟨0, 1, 0⟩] (1 / 10) = true := by
      rw [show ([Vec3.zero, ⟨1, 0, 0⟩] : List Vec3).length = 2 from rfl,
        anyGoodPair_eq_true_iff]
      refine ⟨1, by norm_num, 0, by norm_num, ?_⟩
      simp only [List.getD_cons_succ, List.getD_cons_zero]
      rw [angle_e2_e1]
      constructor <;> nlinarith [Real.pi_gt_three]
    simp only [TriangulateBearingsMidpoint, TriangulateBearingsMidpointWith,
      hg2, if_true]
    rw [midpointPostLoop]
    simp

/-- Witness for C10: a single view with a single threshold entry. -/
theorem midpoint_thresholdList_unchecked_precondition_witness :
    (TriangulateBearingsMidpoint [(⟨0, 0, 0⟩ : Vec3)] [(⟨0, 0, 1⟩ : Vec3)]
        [1] (1 / 10) 0).isSome = true ∧
    TriangulateBearingsMidpoint [Vec3.zero, ⟨1, 0, 0⟩]
      [⟨1, 0, 0⟩, ⟨0, 1, 0⟩] [] (1 / 10) 0 = none :=
  midpoint_thresholdList_unchecked_precondition [(⟨0, 0, 0⟩ : Vec3)]
    [(⟨0, 0, 1⟩ : Vec3)] [1] (1 / 10) 0 (by norm_num)

/-- **C8.** In the binding layer, `AddView` raises an explicit
invalid-argument error before any native computation begins whenever the
supplied raster shapes disagree: the estimator wrapper when image and mask
differ in either dimension, the pruner wrapper when depth differs from plane,
color or label in either dimension; when the shapes agree the underlying
native `AddView` is invoked (with `shape(1), shape(0)` of the leading
raster). -/
theorem addView_validates_shapes (image mask depth plane color label : PyArray) :
    (DepthmapEstimatorWrapperAddView image mask =
        Except.error "image and mask must have matching shapes." ↔
      image.shape0 ≠ mask.shape0 ∨ image.shape1 ≠ mask.shape1) ∧
    (image.shape0 = mask.shape0 ∧ image.shape1 = mask.shape1 →
      DepthmapEstimatorWrapperAddView image mask =
        Except.ok ⟨image.shape1, image.shape0⟩) ∧
    ((∃ e, DepthmapPrunerWrapperAddView depth plane color label =
        Except.error e) ↔
      (depth.shape0 ≠ plane.shape0 ∨ depth.shape1 ≠ plane.shape1) ∨
      (depth.shape0 ≠ color.shape0 ∨ depth.shape1 ≠ color.shape1) ∨
      (depth.shape0 ≠ label.shape0 ∨ depth.shape1 ≠ label.shape1)) ∧
    ((depth.shape0 = plane.shape0 ∧ depth.shape1 = plane.shape1) ∧
      (depth.shape0 = color.shape0 ∧ depth.shape1 = color.shape1) ∧
      (depth.shape0 = label.shape0 ∧ depth.shape1 = label.shape1) →
      DepthmapPrunerWrapperAddView depth plane color label =
        Except.ok ⟨depth.shape1, depth.shape0⟩) := by
  refine ⟨?_, ?_, ?_, ?_⟩
  · simp only [DepthmapEstimatorWrapperAddView]
    split_ifs with h
    · exact iff_of_true rfl h
    · exact iff_of_false (by simp) h
  · rintro ⟨h0, h1⟩
    simp [DepthmapEstimatorWrapperAddView, h0, h1]
  · simp only [DepthmapPrunerWrapperAddView]
    split_ifs with h1 h2 h3
    · exact iff_of_true ⟨_, rfl⟩ (Or.inl h1)
    · exact iff_of_true ⟨_, rfl⟩ (Or.inr (Or.inl h2))
    · exact iff_of_true ⟨_, rfl⟩ (Or.inr (Or.inr h3))
    · refine iff_of_false ?_ ?_
      · rintro ⟨e, he⟩
        simp at he
      · rintro (h | h | h)
        · exact h1 h
        · exact h2 h
        · exact h3 h
  · rintro ⟨⟨hp0, hp1⟩, ⟨hc0, hc1⟩, ⟨hl0, hl1⟩⟩
    simp [DepthmapPrunerWrapperAddView, hp0, hp1, hp0.symm.trans hc0,
      hp1.symm.trans hc1, hp0.symm.trans hl0, hp1.symm.trans hl1]
    omega

lemma flatMap_triple_length {α β : Type} (f g h : α → β) (l : List α) :
    (l.flatMap fun a => [f a, g a, h a]).length = 3 * l.length := by
  induction l with
  | nil => simp
  | cons a t ih =>
    simp only [List.flatMap_cons, List.length_cons, List.length_append, ih]
    simp
    omega

lemma flatMap_triple_getD {α β : Type} (f g h : α → β) (d0 : α) (d : β) :
    ∀ (l : List α) (i : ℕ), i < l.length →
      (l.flatMap fun a => [f a, g a, h a]).getD (3 * i) d = f (l.getD i d0) ∧
      (l.flatMap fun a => [f a, g a, h a]).getD (3 * i + 1) d =
        g (l.getD i d0) ∧
      (l.flatMap fun a => [f a, g a, h a]).getD (3 * i + 2) d =
        h (l.getD i d0) := by
  intro l
  induction l with
  | nil =>
    intro i hi
    simp at hi
  | cons a t ih =>
    intro i hi
    cases i with
    | zero => simp [List.flatMap_cons]
    | succ k =>
      have hk : k < t.length := by
        simpa using hi
      have h3 : 3 * (k + 1) = 3 * k + 1 + 1 + 1 := by omega
      rw [h3]
      simp only [List.flatMap_cons, List.cons_append, List.nil_append,
        List.getD_cons_succ]
      exact ih k hk

lemma tinySolverRun_iteration_bound (step : Vec3 → Vec3)
    (converged : Vec3 → Bool) :
    ∀ (n : ℕ) (x : Vec3), (TinySolverRun step converged n x).2 ≤ n := by
  intro n
  induction n with
  | zero =>
    intro x
    simp [TinySolverRun]
  | succ n ih =>
    intro x
    rw [TinySolverRun]
    split_ifs with h
    · simp
    · simpa using Nat.succ_le_succ (ih (step x))

/-- **C5.** `PointRefinement` minimizes the `BearingErrorCost` residuals —
for each (center, bearing) observation the residual triple is
`normalize(point − center) − bearing` — through a generic least-squares
solver, and the caller-supplied iteration count is a hard upper bound on the
number of solver iterations performed (an internal convergence-based early
exit may stop sooner, but never runs more). -/
theorem pointRefinement_residuals_and_iteration_bound
    (centers bearings : List Vec3) (p : Vec3) (iterations : ℕ) :
    (BearingErrorCostEvaluate centers bearings p).length =
      3 * bearings.length ∧
    (∀ i, i < bearings.length →
      (BearingErrorCostEvaluate centers bearings p).getD (3 * i) 0 =
        (NormalizeForward (p.sub (centers.getD i default))).x -
          (bearings.getD i default).x ∧
      (BearingErrorCostEvaluate centers bearings p).getD (3 * i + 1) 0 =
        (NormalizeForward (p.sub (centers.getD i default))).y -
          (bearings.getD i default).y ∧
      (BearingErrorCostEvaluate centers bearings p).getD (3 * i + 2) 0 =
        (NormalizeForward (p.sub (centers.getD i default))).z -
          (bearings.getD i default).z) ∧
    (∀ (step : Vec3 → Vec3) (converged : Vec3 → Bool) (n : ℕ) (x : Vec3),
      (TinySolverRun step converged n x).2 ≤ n) ∧
    PointRefinementIterationCount centers bearings p iterations ≤
      iterations ∧
    PointRefinement centers bearings p iterations =
      (TinySolverRun (tinySolverStep centers bearings)
        (tinySolverConverged centers bearings) iterations p).1 := by
  refine ⟨?_, ?_, ?_, ?_, rfl⟩
  · have h := flatMap_triple_length
      (fun i => (NormalizeForward (p.sub (centers.getD i default))).x -
        (bearings.getD i default).x)
      (fun i => (NormalizeForward (p.sub (centers.getD i default))).y -
        (bearings.getD i default).y)
      (fun i => (NormalizeForward (p.sub (centers.getD i default))).z -
        (bearings.getD i default).z)
      (List.range bearings.length)
    exact h.trans (by simp)
  · intro i hi
    have hr : i < (List.range bearings.length).length := by simpa using hi
    have h := flatMap_triple_getD
      (fun i => (NormalizeForward (p.sub (centers.getD i default))).x -
        (bearings.getD i default).x)
      (fun i => (NormalizeForward (p.sub (centers.getD i default))).y -
        (bearings.getD i default).y)
      (fun i => (NormalizeForward (p.sub (centers.getD i default))).z -
        (bearings.getD i default).z)
      0 0 (List.range bearings.length) i hr
    have hri : (List.range bearings.length).getD i 0 = i := by
      rw [List.getD_eq_getElem _ _ hr]
      simp
    rw [hri] at h
    exact h
  · exact tinySolverRun_iteration_bound
  · exact tinySolverRun_iteration_bound _ _ iterations p

end OpenSfM
